import Mathlib

/-!
Verification development for the Artist Project Assistant repository.

The Python sources under `src/` are shallowly embedded as executable Lean
definitions.  External collaborators (the LLM provider and the MCP search
agent) are modelled as environment parameters: per-attempt behaviours for the
search agent, chunk lists for the streaming LLM, and rational jitter values
for `random.uniform(0, 1)`.
-/

/- ## Python string helpers -/

/-- Whether `pat` occurs at the head of `s` (character lists). -/
def startsWithList : List Char → List Char → Bool
  | [], _ => true
  | _ :: _, [] => false
  | p :: ps, c :: cs => p == c && startsWithList ps cs

/-- Whether `pat` occurs anywhere in `s` (character lists). -/
def containsList (pat : List Char) : List Char → Bool
  | [] => startsWithList pat []
  | c :: cs => startsWithList pat (c :: cs) || containsList pat cs

/-- Model of the Python substring test `pat in s`. -/
def pyContains (s pat : String) : Bool := containsList pat.data s.data

/-- Model of Python `s[:n]`. -/
def pyTake (n : Nat) (s : String) : String := String.mk (s.data.take n)

/-- Model of Python `s.replace("*", "")` in `_collect_search_results`. -/
def stripStars (s : String) : String := String.mk (s.data.filter (fun c => c != '*'))

/-- Model of Python `s.lower()` (ASCII case folding suffices for the two
rate-limit marker phrases being scanned for). -/
def pyLower (s : String) : String := String.mk (s.data.map Char.toLower)

/-- Recursion core of `pySplit`, structural on a character-count fuel. -/
def pySplitFuel (sep : List Char) : Nat → List Char → List Char → List String
  | 0, rest, acc => [String.mk (acc.reverse ++ rest)]
  | _ + 1, [], acc => [String.mk acc.reverse]
  | fuel + 1, c :: cs, acc =>
      if startsWithList sep (c :: cs) then
        String.mk acc.reverse :: pySplitFuel sep fuel (List.drop (sep.length - 1) cs) []
      else
        pySplitFuel sep fuel cs (c :: acc)

/-- Model of Python `s.split(sep)` for a nonempty separator (identical to
`String.splitOn` semantics): split at non-overlapping occurrences scanning
left to right, keeping empty segments. -/
def pySplit (s sep : String) : List String :=
  pySplitFuel sep.data s.data.length s.data []

/-- Model of Python `s.strip()`: remove leading and trailing whitespace. -/
def pyStrip (s : String) : String :=
  String.mk ((s.data.dropWhile Char.isWhitespace).reverse.dropWhile Char.isWhitespace).reverse

/-- Joining a list of segments back with the separator between them. -/
def joinSep (sep : String) : List String → String
  | [] => ""
  | [x] => x
  | x :: xs => x ++ sep ++ joinSep sep xs

/-- Model of a Python f-string interpolating an `Optional[str]`: `None` renders
as the text `"None"`. -/
def pyOptStr : Option String → String
  | some s => s
  | none => "None"

/-- Model of Python truthiness of an `Optional[str]` (`None` and `""` are falsy),
as used by `if project_request.follow_up_question:` in `api/routes.py`. -/
def isTruthy : Option String → Bool
  | some s => s ≠ ""
  | none => false

/- ## Data model -/

/-- Message roles used in `conversation_history` and in the session store. -/
inductive Role
  | system
  | user
  | assistant
deriving DecidableEq, Repr

/-- A single history entry `{"role": ..., "message": ...}`. -/
structure Message where
  role : Role
  message : String
deriving DecidableEq, Repr

/-- One accumulated search result `{"query": ..., "results": ...}`. -/
structure SearchResult where
  query : String
  results : String
deriving DecidableEq, Repr

/- ## core/prompts.py -/

/-- `get_search_queries` from `core/prompts.py`: five fixed templates around the
project description. -/
def get_search_queries (project_description : String) : List String :=
  ["trending tools for " ++ project_description,
   "best software for " ++ project_description ++ " 2025",
   "how to set up " ++ project_description ++ " workflow",
   "tips and best practices for " ++ project_description,
   "free and paid tools comparison for " ++ project_description]

/- ## core/assistant.py: the Retrying Search Executor -/

/-- `self.max_retries` from `ArtistProjectAssistant.__init__`. -/
def max_retries : Nat := 3

/-- `self.retry_delay` from `ArtistProjectAssistant.__init__` (seconds). -/
def retry_delay : Nat := 5

/-- `self.retry_delay * (2 ** attempt)` as an exact rational. -/
def backoffDelay (attempt : Nat) : ℚ := (retry_delay : ℚ) * 2 ^ attempt

/-- `_generate_fallback_response` from `core/assistant.py`. -/
def generate_fallback_response (query : String) : String :=
  "I couldn't retrieve external information about '" ++ query ++
  "' due to service limitations. I'll use my internal knowledge to assist with this topic instead."

/-- The case-insensitive rate-limit marker scan
`"rate-limited" in chunk.lower() or "unable to complete" in chunk.lower()`. -/
def rateLimitHit (chunk : String) : Bool :=
  pyContains (pyLower chunk) "rate-limited" || pyContains (pyLower chunk) "unable to complete"

/-- One attempt of the agent's streaming mode: the chunks the stream yields,
and whether afterwards it completes (`err = none`) or raises (`err = some e`). -/
structure StreamRun where
  pre : List String
  err : Option String

/-- Behaviour of `self.agent` across attempts: either it has a `stream` method
(streaming mode) or only `run` (blocking mode, which returns a result string or
raises). -/
inductive AgentBehavior
  | streaming (runs : Nat → StreamRun)
  | blocking (runs : Nat → Except String String)

/-- Events observable from `_execute_search_with_retry`: a `yield` of a text
chunk, or an `await asyncio.sleep` of `t` seconds issued while on 0-indexed
attempt `attempt`. -/
inductive Ev
  | out (s : String)
  | sleepFor (attempt : Nat) (t : ℚ)
deriving DecidableEq, Repr

/-- Result of scanning one attempt's chunk stream: either a rate-limit marker
chunk was found (the chunks before it were forwarded, the marker chunk itself
is dropped and the loop breaks), or the stream was consumed to the end. -/
inductive ScanOut
  | limited (fwd : List String)
  | done (fwd : List String)
deriving DecidableEq, Repr

/-- The `async for chunk in self.agent.stream(...)` loop body: forward chunks
until one matches the rate-limit scan. -/
def scanChunks : List String → ScanOut
  | [] => .done []
  | c :: cs =>
      if rateLimitHit c then .limited []
      else
        match scanChunks cs with
        | .limited fwd => .limited (c :: fwd)
        | .done fwd => .done (c :: fwd)

/-- `f"Starting search for: {query}...\n"`. -/
def startMsg (q : String) : String := "Starting search for: " ++ q ++ "...\n"

/-- `"\nSearch completed successfully.\n"`. -/
def successMsg : String := "\nSearch completed successfully.\n"

/-- `f"\nSearch encountered rate limits. Retrying in {self.retry_delay * (2 ** attempt)} seconds...\n"`. -/
def retryNoticeMsg (attempt : Nat) : String :=
  "\nSearch encountered rate limits. Retrying in " ++ toString (retry_delay * 2 ^ attempt) ++
  " seconds...\n"

/-- `f"\nSearch attempt {attempt+1} failed: {str(e)[:50]}...\n"`. -/
def attemptFailMsg (attempt : Nat) (e : String) : String :=
  "\nSearch attempt " ++ toString (attempt + 1) ++ " failed: " ++ pyTake 50 e ++ "...\n"

/-- `f"Waiting {wait_time:.1f} seconds before retrying...\n"`; the `%.1f`
decimal rendering of the float is abstracted to `toString` of the exact
rational, since no claim concerns the rendered digits. -/
def waitMsg (t : ℚ) : String := "Waiting " ++ toString t ++ " seconds before retrying...\n"

/-- The two chunks yielded after the retry loop is exhausted. -/
def allFailedEvents (q : String) : List Ev :=
  [Ev.out "\nAll search attempts failed. Using internal knowledge instead.\n",
   Ev.out (generate_fallback_response q)]

/-- The retry loop of `_execute_search_with_retry` for a streaming agent.
`attempt` is the current 0-indexed attempt, the second argument the number of
loop iterations left (`max_retries - attempt`). -/
def execAuxStreaming (q : String) (runs : Nat → StreamRun) (jitter : Nat → ℚ) :
    Nat → Nat → List Ev
  | _, 0 => allFailedEvents q
  | attempt, rem + 1 =>
      Ev.out (startMsg q) ::
      match scanChunks (runs attempt).pre with
      | .limited fwd =>
          fwd.map Ev.out ++
            (Ev.out (retryNoticeMsg attempt) ::
             Ev.sleepFor attempt (backoffDelay attempt + jitter attempt) ::
             execAuxStreaming q runs jitter (attempt + 1) rem)
      | .done fwd =>
          match (runs attempt).err with
          | none => fwd.map Ev.out ++ [Ev.out successMsg]
          | some e =>
              fwd.map Ev.out ++
                (Ev.out (attemptFailMsg attempt e) ::
                 Ev.out (waitMsg (backoffDelay attempt + jitter attempt)) ::
                 Ev.sleepFor attempt (backoffDelay attempt + jitter attempt) ::
                 execAuxStreaming q runs jitter (attempt + 1) rem)

/-- The retry loop of `_execute_search_with_retry` for a blocking agent
(the `hasattr(self.agent, "stream")` fallback branch). -/
def execAuxBlocking (q : String) (runs : Nat → Except String String) (jitter : Nat → ℚ) :
    Nat → Nat → List Ev
  | _, 0 => allFailedEvents q
  | attempt, rem + 1 =>
      Ev.out (startMsg q) :: Ev.out "Searching...\n" ::
      match runs attempt with
      | .error e =>
          Ev.out (attemptFailMsg attempt e) ::
          Ev.out (waitMsg (backoffDelay attempt + jitter attempt)) ::
          Ev.sleepFor attempt (backoffDelay attempt + jitter attempt) ::
          execAuxBlocking q runs jitter (attempt + 1) rem
      | .ok result =>
          if rateLimitHit result then
            Ev.out (retryNoticeMsg attempt) ::
            Ev.sleepFor attempt (backoffDelay attempt + jitter attempt) ::
            execAuxBlocking q runs jitter (attempt + 1) rem
          else [Ev.out result]

/-- `_execute_search_with_retry` from `core/assistant.py`, as the finite event
trace it produces for a given agent behaviour and jitter draw. -/
def execute_search_with_retry (q : String) (ag : AgentBehavior) (jitter : Nat → ℚ) : List Ev :=
  match ag with
  | .streaming runs => execAuxStreaming q runs jitter 0 max_retries
  | .blocking runs => execAuxBlocking q runs jitter 0 max_retries

/-- The chunk strings yielded by an event trace (dropping sleeps). -/
def yieldsOf (evs : List Ev) : List String :=
  evs.filterMap fun e =>
    match e with
    | .out s => some s
    | .sleepFor _ _ => none

/-- Whether 0-indexed attempt `i` fails (ends in a rate-limit marker or an
exception) rather than completing successfully. -/
def attemptFails (ag : AgentBehavior) (i : Nat) : Bool :=
  match ag with
  | .streaming runs =>
      match scanChunks (runs i).pre with
      | .limited _ => true
      | .done _ => (runs i).err.isSome
  | .blocking runs =>
      match runs i with
      | .error _ => true
      | .ok r => rateLimitHit r

/- ## core/assistant.py: the Research Collector -/

/-- Which yield site of `_collect_search_results` produced an event. -/
inductive Tag
  | researching (q : String)
  | cacheHit (q : String)
  | fwd (q : String)
  | pacingNote (q : String)
  | summary
deriving DecidableEq, Repr

/-- Events observable from `_collect_search_results`: a yield of
`(text, search_results)` (with the snapshot of the results list at yield time),
the invocation of `_execute_search_with_retry` on a query, and the
`await asyncio.sleep(1)` pacing delay. -/
inductive CEv
  | emit (tag : Tag) (text : String) (snap : List SearchResult)
  | call (q : String)
  | pause
deriving DecidableEq, Repr

/-- `f"\n[Researching... {query}\n"`. -/
def researchingMsg (q : String) : String := "\n[Researching... " ++ q ++ "\n"

/-- `f"Using cached search results for: {query}\n"`. -/
def cacheHitMsg (q : String) : String := "Using cached search results for: " ++ q ++ "\n"

/-- `"Pausing briefly before next search...\n"`. -/
def pacingMsg : String := "Pausing briefly before next search...\n"

/-- `f"\nAll research completed. Found information for {n} queries.\n"`. -/
def summaryMsg (n : Nat) : String :=
  "\nAll research completed. Found information for " ++ toString n ++ " queries.\n"

/-- Output of one research pass: the event trace, the final `search_results`
list, and the final `self.search_cache` (an association list modelling the
Python dict; new entries are consed at the front, and `List.lookup` takes the
first match, matching dict assignment/lookup). -/
structure CollectOut where
  events : List CEv
  results : List SearchResult
  cache : List (String × String)

/-- The query loop of `_collect_search_results`: `cache` is
`self.search_cache`, `acc` the `search_results` accumulated so far. -/
def collectGo (env : String → AgentBehavior) (jit : String → Nat → ℚ) :
    List (String × String) → List SearchResult → List String → CollectOut
  | cache, acc, [] =>
      ⟨[CEv.emit Tag.summary (summaryMsg acc.length) acc], acc, cache⟩
  | cache, acc, q :: qs =>
      let e0 : CEv := CEv.emit (Tag.researching q) (researchingMsg q) acc
      match cache.lookup q with
      | some cached =>
          let rest := collectGo env jit cache (acc ++ [⟨q, cached⟩]) qs
          ⟨e0 :: CEv.emit (Tag.cacheHit q) (cacheHitMsg q) acc :: rest.events,
           rest.results, rest.cache⟩
      | none =>
          let chunks := yieldsOf (execute_search_with_retry q (env q) (jit q))
          let full := String.join chunks
          let acc' := acc ++ [⟨q, stripStars full⟩]
          let rest := collectGo env jit ((q, full) :: cache) acc' qs
          ⟨e0 :: CEv.call q :: chunks.map (fun c => CEv.emit (Tag.fwd q) c acc) ++
             (CEv.emit (Tag.pacingNote q) pacingMsg acc' :: CEv.pause :: rest.events),
           rest.results, rest.cache⟩

/-- `_collect_search_results` from `core/assistant.py`. -/
def collect_search_results (env : String → AgentBehavior) (jit : String → Nat → ℚ)
    (cache : List (String × String)) (project_description : String) : CollectOut :=
  collectGo env jit cache [] (get_search_queries project_description)

/-- Number of `asyncio.sleep(1)` pacing delays in a collector trace. -/
def pauseCount (evs : List CEv) : Nat :=
  (evs.filter fun e => match e with | CEv.pause => true | _ => false).length

/-- Number of `_execute_search_with_retry` invocations in a collector trace. -/
def callCount (evs : List CEv) : Nat :=
  (evs.filter fun e => match e with | CEv.call _ => true | _ => false).length

/-- Number of summary events in a collector trace. -/
def summaryCount (evs : List CEv) : Nat :=
  (evs.filter fun e => match e with | CEv.emit Tag.summary _ _ => true | _ => false).length

/-- The queries of the researching-status events, in emission order. -/
def researchingQs (evs : List CEv) : List String :=
  evs.filterMap fun e =>
    match e with
    | CEv.emit (Tag.researching q) _ _ => some q
    | _ => none

/- ## core/assistant.py: the Assistant Orchestrator -/

/-- An assistant instance: `__init__` binds `self.conversation_history` to the
module-level global `utils.session.conversation_history` (an alias, not a
copy), so the only per-instance state is `self.search_cache`. -/
structure ArtistProjectAssistant where
  search_cache : List (String × String)
deriving DecidableEq, Repr

/-- Process-wide mutable state: the `sessions` dict and the global
`conversation_history` list from `utils/session.py`. -/
structure ServerState where
  sessions : List (String × List Message)
  history : List Message
deriving DecidableEq, Repr

/-- Reading `self.conversation_history` on any instance returns the shared
module-level list (aliasing in `__init__`). -/
def ArtistProjectAssistant.readHistory (_ : ArtistProjectAssistant) (st : ServerState) :
    List Message :=
  st.history

/-- Actions observable from `stream_project` / `stream_followup`, in program
order: a `.append` on the conversation history, an invocation of the search
executor, a streaming LLM invocation, a yielded text chunk, and the pacing
delay forwarded from the collector. -/
inductive Act
  | append (m : Message)
  | searchCall (q : String)
  | llmCall
  | out (s : String)
  | pauseAct
deriving DecidableEq, Repr

/-- The collector events as seen from `stream_project`: each yielded
`(status_or_chunk, results)` tuple is forwarded as a yield of the text. -/
def actOfCEv : CEv → Act
  | CEv.emit _ t _ => Act.out t
  | CEv.call q => Act.searchCall q
  | CEv.pause => Act.pauseAct

/-- The synthesis-phase marker chunk yielded by `stream_project`. -/
def synth_marker_chunk : String :=
  "\n\n[LLM Synthesis] Generating comprehensive project guide...\n\n"

/-- The `synthesis_marker` constant from `research_project`. -/
def synthesis_marker : String := "[LLM Synthesis] Generating comprehensive project guide..."

/-- Result of draining one orchestrator entry point to completion. -/
structure StreamOut where
  trace : List Act
  state : ServerState
  self : ArtistProjectAssistant

/-- `stream_project` from `core/assistant.py`, drained to completion.
`syn` is the environment's list of `chunk.content` values produced by
`self.llm.astream` during synthesis; chunks with empty content are neither
accumulated nor yielded. -/
def stream_project (self : ArtistProjectAssistant) (env : String → AgentBehavior)
    (jit : String → Nat → ℚ) (syn : List String) (st : ServerState)
    (project_description : String) : StreamOut :=
  let userMsg : Message := ⟨Role.user, "Project Description: " ++ project_description⟩
  let col := collect_search_results env jit self.search_cache project_description
  let content := String.join (syn.filter (· ≠ ""))
  let asstMsg : Message := ⟨Role.assistant, content⟩
  ⟨Act.append userMsg ::
     (col.events.map actOfCEv ++
       (Act.out synth_marker_chunk :: Act.llmCall ::
         ((syn.filter (· ≠ "")).map Act.out ++ [Act.append asstMsg]))),
   ⟨st.sessions, st.history ++ [userMsg, asstMsg]⟩,
   ⟨col.cache⟩⟩

/-- `stream_followup` from `core/assistant.py`, drained to completion.
`fu` is the environment's list of `chunk.content` values produced by
`self.chain.astream`. -/
def stream_followup (self : ArtistProjectAssistant) (fu : List String) (st : ServerState)
    (user_input : String) : StreamOut :=
  let userMsg : Message := ⟨Role.user, user_input⟩
  let content := String.join (fu.filter (· ≠ ""))
  let asstMsg : Message := ⟨Role.assistant, content⟩
  ⟨Act.append userMsg :: Act.llmCall ::
     ((fu.filter (· ≠ "")).map Act.out ++ [Act.append asstMsg]),
   ⟨st.sessions, st.history ++ [userMsg, asstMsg]⟩,
   self⟩

/-- `_get_context_string` from `core/assistant.py`. -/
def get_context_string (hist : List Message) : String :=
  String.intercalate "\n"
    (hist.map fun m =>
      (match m.role with
       | Role.system => "system"
       | Role.user => "user"
       | Role.assistant => "assistant") ++ ": " ++ m.message)

/-- The conversation history read by `_get_context_string` when the follow-up
chain executes: the global history after the user-message append of
`stream_followup`. -/
def followup_consulted_history (hist : List Message) (user_input : String) : List Message :=
  hist ++ [⟨Role.user, user_input⟩]

/-- The chunk texts yielded by an orchestrator trace. -/
def actOut? : Act → Option String
  | Act.out s => some s
  | _ => none

/-- The full response text accumulated by `research_project` from
`stream_project`: the concatenation of every yielded chunk. -/
def accumulated_stream (self : ArtistProjectAssistant) (env : String → AgentBehavior)
    (jit : String → Nat → ℚ) (syn : List String) (st : ServerState)
    (project_description : String) : String :=
  String.join ((stream_project self env jit syn st project_description).trace.filterMap actOut?)

/-- `research_project` from `core/assistant.py`: accumulate the stream, then
`full.split(synthesis_marker)[1].strip()` when the marker occurs, else the full
text.  (`pySplit` has Python's non-overlapping left-to-right split semantics,
so the `[1]` element is the second entry of the split.) -/
def research_project (self : ArtistProjectAssistant) (env : String → AgentBehavior)
    (jit : String → Nat → ℚ) (syn : List String) (st : ServerState)
    (project_description : String) : String :=
  let full := accumulated_stream self env jit syn st project_description
  match pySplit full synthesis_marker with
  | _ :: second :: _ => pyStrip second
  | _ => full

/- ## utils/session.py and the API layer -/

/-- `create_session` from `utils/session.py`: `sessions[session_id] =
[SystemMessage(content=system_prompt)]`.  The generated UUID is passed in as
`freshId`; consing the new binding at the front models dict assignment, since
`List.lookup` returns the first match. -/
def create_session (system_prompt : String) (freshId : String)
    (sessions : List (String × List Message)) : String × List (String × List Message) :=
  (freshId, (freshId, [⟨Role.system, system_prompt⟩]) :: sessions)

/-- The request body of `POST /process` (`api/models.py`, `ProjectRequest`). -/
structure ProjectRequest where
  project_description : Option String
  follow_up_question : Option String
  session_id : Option String
  model_type : Option String
deriving DecidableEq, Repr

/-- The response body of `POST /process` (`api/models.py`, `ProjectResponse`):
both fields are declared as required `str`. -/
structure ProjectResponse where
  response : String
  session_id : String
deriving DecidableEq, Repr

/-- Pydantic validation of a `ProjectResponse` construction: a required `str`
field rejects `None` with a `ValidationError`. -/
def mkProjectResponse (response : Option String) (session_id : Option String) :
    Except String ProjectResponse :=
  match response, session_id with
  | some r, some s => Except.ok ⟨r, s⟩
  | _, _ => Except.error "ValidationError: ProjectResponse fields are required strings"

/-- `process_request_background` from `api/routes.py`: each request gets a
fresh assistant from `get_assistant` (empty `search_cache`), dispatches on the
truthiness of `follow_up_question`, and drains the chosen streaming entry point
to completion.  Session ids in the request are never read. -/
def process_request_background (env : String → AgentBehavior) (jit : String → Nat → ℚ)
    (syn fu : List String) (st : ServerState) (req : ProjectRequest) :
    String × ServerState :=
  let assistant : ArtistProjectAssistant := ⟨[]⟩
  if isTruthy req.follow_up_question then
    let question := pyOptStr req.follow_up_question
    let out := stream_followup assistant fu st question
    (String.join (fu.filter (· ≠ "")), out.state)
  else
    let desc := pyOptStr req.project_description
    let out := stream_project assistant env jit syn st desc
    (research_project assistant env jit syn st desc, out.state)

/-- The `POST /process` endpoint (`process_project` in `api/routes.py`):
process the request, then build `ProjectResponse(response=response,
session_id=None)`. -/
def process_route (env : String → AgentBehavior) (jit : String → Nat → ℚ)
    (syn fu : List String) (st : ServerState) (req : ProjectRequest) :
    Except String ProjectResponse × ServerState :=
  let (resp, st') := process_request_background env jit syn fu st req
  (mkProjectResponse (some resp) none, st')

/- ## Concrete environments used by witnesses and counterexamples -/

/-- A blocking agent whose every attempt raises the exception text `"boom"`. -/
def failAgent : AgentBehavior := AgentBehavior.blocking (fun _ => Except.error "boom")

/-- A blocking agent whose every attempt returns `r` (no rate-limit marker is
contained in the concrete `r` values used below). -/
def okAgent (r : String) : AgentBehavior := AgentBehavior.blocking (fun _ => Except.ok r)

/-- Zero jitter for a single executor run. -/
def zeroJitter : Nat → ℚ := fun _ => 0

/-- An environment in which every search succeeds on the first attempt with
the chunk `"x*y"`. -/
def starEnv : String → AgentBehavior := fun _ => okAgent "x*y"

/-- An environment in which every search succeeds on the first attempt with a
chunk that itself contains the synthesis marker text. -/
def markerEnv : String → AgentBehavior :=
  fun _ => okAgent ("see " ++ synthesis_marker ++ " twice")

/-- An environment in which every search succeeds on the first attempt with
the chunk `"R"`. -/
def plainEnv : String → AgentBehavior := fun _ => okAgent "R"

/-- Zero jitter for every query of a research pass. -/
def zeroJit : String → Nat → ℚ := fun _ _ => 0

/-- The cache produced by a first research pass for description `"d"` in
`starEnv`: every cached text ends in `"x*y"` and is stored unstripped. -/
def starCache : List (String × String) :=
  (collect_search_results starEnv zeroJit [] "d").cache

/-- Whether an orchestrator action is a history append. -/
def isAppend : Act → Bool
  | Act.append _ => true
  | _ => false

/-- The history invariant of the spec: every user-role message is immediately
followed by an assistant-role message (in particular a history never ends in a
user message). -/
def user_followed_by_assistant : List Message → Bool
  | [] => true
  | [m] => decide (m.role ≠ Role.user)
  | m₁ :: m₂ :: rest =>
      (decide (m₁.role ≠ Role.user) || decide (m₂.role = Role.assistant)) &&
      user_followed_by_assistant (m₂ :: rest)

/-- Modelled from the claim wording for C10: the portion of the accumulated
stream that follows the FIRST occurrence of the marker (the whole stream when
the marker is absent). -/
def text_after_first_marker (s m : String) : String :=
  match pySplit s m with
  | _ :: rest => if rest.isEmpty then s else joinSep m rest
  | [] => s

/-- A jitter draw of one half for every attempt. -/
def halfJitter : Nat → ℚ := fun _ => 1 / 2

/-- An environment in which every search succeeds on the first attempt with an
empty chunk. -/
def emptyEnv : String → AgentBehavior := fun _ => okAgent ""

/- ## Theorems -/

/-- C4: for every description, `get_search_queries` returns exactly 5 query
strings, each containing the description as a substring, and two calls with the
same description return identical ordered sequences. -/
theorem get_search_queries_five_and_contains (d : String) :
    (get_search_queries d).length = 5 ∧
    (∀ q ∈ get_search_queries d, ∃ p s, q = p ++ d ++ s) ∧
    get_search_queries d = get_search_queries d := by
  refine ⟨rfl, ?_, rfl⟩
  intro q hq
  simp only [get_search_queries, List.mem_cons, List.not_mem_nil, or_false] at hq
  rcases hq with h | h | h | h | h
  · exact ⟨"trending tools for ", "", by rw [h, String.append_empty]⟩
  · exact ⟨"best software for ", " 2025", h⟩
  · exact ⟨"how to set up ", " workflow", h⟩
  · exact ⟨"tips and best practices for ", "", by rw [h, String.append_empty]⟩
  · exact ⟨"free and paid tools comparison for ", "", by rw [h, String.append_empty]⟩

/-- `yieldsOf` distributes over trace concatenation. -/
theorem yieldsOf_append (a b : List Ev) : yieldsOf (a ++ b) = yieldsOf a ++ yieldsOf b :=
  List.filterMap_append ..

/-- If every remaining attempt fails, the streaming retry loop ends in the
exhausted-retries events. -/
theorem execAuxStreaming_exhaust (q : String) (runs : Nat → StreamRun) (jitter : Nat → ℚ) :
    ∀ (rem attempt : Nat),
      (∀ i, attempt ≤ i → i < attempt + rem →
        attemptFails (AgentBehavior.streaming runs) i = true) →
      ∃ p, execAuxStreaming q runs jitter attempt rem = p ++ allFailedEvents q := by
  intro rem
  induction rem with
  | zero => exact fun attempt _ => ⟨[], rfl⟩
  | succ n ih =>
      intro attempt h
      have hfail := h attempt le_rfl (by omega)
      obtain ⟨p, hp⟩ := ih (attempt + 1) (fun i h1 h2 => h i (by omega) (by omega))
      cases hscan : scanChunks (runs attempt).pre with
      | limited fwd =>
          refine ⟨Ev.out (startMsg q) :: fwd.map Ev.out ++
            [Ev.out (retryNoticeMsg attempt),
             Ev.sleepFor attempt (backoffDelay attempt + jitter attempt)] ++ p, ?_⟩
          simp only [execAuxStreaming, hscan, hp]
          simp [List.append_assoc]
      | done fwd =>
          have herr : (runs attempt).err.isSome = true := by
            simpa [attemptFails, hscan] using hfail
          obtain ⟨e, he⟩ := Option.isSome_iff_exists.mp herr
          refine ⟨Ev.out (startMsg q) :: fwd.map Ev.out ++
            [Ev.out (attemptFailMsg attempt e),
             Ev.out (waitMsg (backoffDelay attempt + jitter attempt)),
             Ev.sleepFor attempt (backoffDelay attempt + jitter attempt)] ++ p, ?_⟩
          simp only [execAuxStreaming, hscan, he, hp]
          simp [List.append_assoc]

/-- If every remaining attempt fails, the blocking retry loop ends in the
exhausted-retries events. -/
theorem execAuxBlocking_exhaust (q : String) (runs : Nat → Except String String)
    (jitter : Nat → ℚ) :
    ∀ (rem attempt : Nat),
      (∀ i, attempt ≤ i → i < attempt + rem →
        attemptFails (AgentBehavior.blocking runs) i = true) →
      ∃ p, execAuxBlocking q runs jitter attempt rem = p ++ allFailedEvents q := by
  intro rem
  induction rem with
  | zero => exact fun attempt _ => ⟨[], rfl⟩
  | succ n ih =>
      intro attempt h
      have hfail := h attempt le_rfl (by omega)
      obtain ⟨p, hp⟩ := ih (attempt + 1) (fun i h1 h2 => h i (by omega) (by omega))
      cases hrun : runs attempt with
      | error e =>
          refine ⟨Ev.out (startMsg q) :: Ev.out "Searching...\n" ::
            [Ev.out (attemptFailMsg attempt e),
             Ev.out (waitMsg (backoffDelay attempt + jitter attempt)),
             Ev.sleepFor attempt (backoffDelay attempt + jitter attempt)] ++ p, ?_⟩
          simp only [execAuxBlocking, hrun, hp]
          simp [List.append_assoc]
      | ok result =>
          have hrl : rateLimitHit result = true := by
            simpa [attemptFails, hrun] using hfail
          refine ⟨Ev.out (startMsg q) :: Ev.out "Searching...\n" ::
            [Ev.out (retryNoticeMsg attempt),
             Ev.sleepFor attempt (backoffDelay attempt + jitter attempt)] ++ p, ?_⟩
          simp only [execAuxBlocking, hrun, hrl, if_true, hp]
          simp [List.append_assoc]

/-- C1: if every one of the `max_retries` attempts ends in a rate-limit marker
or an exception, `_execute_search_with_retry` terminates normally and its
yielded chunk sequence ends with the final-failure status chunk followed by
exactly the deterministic fallback text. -/
theorem exec_retries_exhausted_fallback (q : String) (ag : AgentBehavior) (jitter : Nat → ℚ)
    (h : ∀ i, i < max_retries → attemptFails ag i = true) :
    ∃ p, yieldsOf (execute_search_with_retry q ag jitter) =
      p ++ ["\nAll search attempts failed. Using internal knowledge instead.\n",
            generate_fallback_response q] := by
  have key : ∃ p, execute_search_with_retry q ag jitter = p ++ allFailedEvents q := by
    cases ag with
    | streaming runs =>
        exact execAuxStreaming_exhaust q runs jitter max_retries 0
          (fun i h1 h2 => h i (by omega))
    | blocking runs =>
        exact execAuxBlocking_exhaust q runs jitter max_retries 0
          (fun i h1 h2 => h i (by omega))
  obtain ⟨p, hp⟩ := key
  refine ⟨yieldsOf p, ?_⟩
  rw [hp, yieldsOf_append]
  rfl

/-- Witness for C1 at a concrete always-raising agent. -/
theorem exec_retries_exhausted_fallback_wit :
    (∀ i, i < max_retries → attemptFails failAgent i = true) ∧
    (∃ p, yieldsOf (execute_search_with_retry "x" failAgent zeroJitter) =
      p ++ ["\nAll search attempts failed. Using internal knowledge instead.\n",
            generate_fallback_response "x"]) :=
  ⟨by decide, exec_retries_exhausted_fallback "x" failAgent zeroJitter (by decide)⟩

/-- Every sleep in the streaming retry loop carries the backoff of its own
attempt plus that attempt's jitter draw. -/
theorem execAuxStreaming_sleep (q : String) (runs : Nat → StreamRun) (jitter : Nat → ℚ) :
    ∀ (rem attempt : Nat) (i : Nat) (t : ℚ),
      Ev.sleepFor i t ∈ execAuxStreaming q runs jitter attempt rem →
      t = backoffDelay i + jitter i := by
  intro rem
  induction rem with
  | zero =>
      intro attempt i t hm
      simp [execAuxStreaming, allFailedEvents] at hm
  | succ n ih =>
      intro attempt i t hm
      rcases hscan : scanChunks (runs attempt).pre with fwd | fwd
      · simp only [execAuxStreaming, hscan] at hm
        simp at hm
        rcases hm with ⟨hi, ht⟩ | h
        · rw [hi, ht]
        · exact ih (attempt + 1) i t h
      · rcases herr : (runs attempt).err with _ | e
        · simp only [execAuxStreaming, hscan, herr] at hm
          simp at hm
        · simp only [execAuxStreaming, hscan, herr] at hm
          simp at hm
          rcases hm with ⟨hi, ht⟩ | h
          · rw [hi, ht]
          · exact ih (attempt + 1) i t h

/-- Every sleep in the blocking retry loop carries the backoff of its own
attempt plus that attempt's jitter draw. -/
theorem execAuxBlocking_sleep (q : String) (runs : Nat → Except String String)
    (jitter : Nat → ℚ) :
    ∀ (rem attempt : Nat) (i : Nat) (t : ℚ),
      Ev.sleepFor i t ∈ execAuxBlocking q runs jitter attempt rem →
      t = backoffDelay i + jitter i := by
  intro rem
  induction rem with
  | zero =>
      intro attempt i t hm
      simp [execAuxBlocking, allFailedEvents] at hm
  | succ n ih =>
      intro attempt i t hm
      rcases hrun : runs attempt with e | result
      · simp only [execAuxBlocking, hrun] at hm
        simp at hm
        rcases hm with ⟨hi, ht⟩ | h
        · rw [hi, ht]
        · exact ih (attempt + 1) i t h
      · rcases hrl : rateLimitHit result with _ | _
        · simp only [execAuxBlocking, hrun, hrl] at hm
          simp at hm
        · simp only [execAuxBlocking, hrun, hrl] at hm
          simp at hm
          rcases hm with ⟨hi, ht⟩ | h
          · rw [hi, ht]
          · exact ih (attempt + 1) i t h

/-- C3: every sleep issued on attempt `i` (rate-limit path or exception path)
equals `retry_delay * 2^i` plus that attempt's jitter draw, and with jitter in
`[0, 1)` it lies in the half-open interval
`[retry_delay * 2^i, retry_delay * 2^i + 1)`. -/
theorem sleep_delay_exponential_bounds (q : String) (ag : AgentBehavior) (jitter : Nat → ℚ)
    (i : Nat) (t : ℚ) (hj : ∀ n, 0 ≤ jitter n ∧ jitter n < 1)
    (hm : Ev.sleepFor i t ∈ execute_search_with_retry q ag jitter) :
    t = (retry_delay : ℚ) * 2 ^ i + jitter i ∧
    (retry_delay : ℚ) * 2 ^ i ≤ t ∧ t < (retry_delay : ℚ) * 2 ^ i + 1 := by
  have ht : t = backoffDelay i + jitter i := by
    cases ag with
    | streaming runs => exact execAuxStreaming_sleep q runs jitter max_retries 0 i t hm
    | blocking runs => exact execAuxBlocking_sleep q runs jitter max_retries 0 i t hm
  obtain ⟨h0, h1⟩ := hj i
  rw [backoffDelay] at ht
  exact ⟨ht, by rw [ht]; linarith, by rw [ht]; linarith⟩

/-- The first-attempt sleep event of an always-raising agent is in its trace. -/
theorem failAgent_sleep_mem :
    Ev.sleepFor 0 (backoffDelay 0 + halfJitter 0) ∈
      execute_search_with_retry "x" failAgent halfJitter := by
  simp [execute_search_with_retry, execAuxBlocking, failAgent, max_retries]

/-- Witness for C3: the first-attempt sleep of an always-raising agent with
jitter one half. -/
theorem sleep_delay_exponential_bounds_wit :
    (0 ≤ halfJitter 0 ∧ halfJitter 0 < 1) ∧
    ((retry_delay : ℚ) * 2 ^ 0 ≤ backoffDelay 0 + halfJitter 0 ∧
      backoffDelay 0 + halfJitter 0 < (retry_delay : ℚ) * 2 ^ 0 + 1) :=
  ⟨⟨by norm_num [halfJitter], by norm_num [halfJitter]⟩,
   (sleep_delay_exponential_bounds "x" failAgent halfJitter 0 (backoffDelay 0 + halfJitter 0)
     (fun _ => ⟨by norm_num [halfJitter], by norm_num [halfJitter]⟩) failAgent_sleep_mem).2⟩

/-- C2 counterexample: run one research pass for description `"d"` in an
environment whose searches return `"x*y"`, then a second pass with the
resulting cache.  The cache-hit of the second pass appends the cached text
verbatim, and that text still contains a literal `*` — the cache was written
without stripping. -/
theorem cache_hit_result_keeps_stars :
    ((collect_search_results starEnv zeroJit starCache "d").results.map
        SearchResult.results).head? =
      some "Starting search for: trending tools for d...\nSearching...\nx*y" ∧
    stripStars "Starting search for: trending tools for d...\nSearching...\nx*y" ≠
      "Starting search for: trending tools for d...\nSearching...\nx*y" := by
  exact ⟨by decide, by decide⟩

/-- C2 amended: when the query at the head of the loop is present in the
cache, the collector adds exactly the researching and cache-hit status events,
appends a SearchResult whose `results` field is the cached text verbatim, and
invokes no search executor for it (no `CEv.call` is added and the rest of the
run proceeds from an unchanged cache). -/
theorem cached_query_appends_verbatim (env : String → AgentBehavior) (jit : String → Nat → ℚ)
    (cache : List (String × String)) (acc : List SearchResult) (q : String)
    (qs : List String) (t : String) (h : cache.lookup q = some t) :
    collectGo env jit cache acc (q :: qs) =
      ⟨CEv.emit (Tag.researching q) (researchingMsg q) acc ::
         CEv.emit (Tag.cacheHit q) (cacheHitMsg q) acc ::
         (collectGo env jit cache (acc ++ [⟨q, t⟩]) qs).events,
       (collectGo env jit cache (acc ++ [⟨q, t⟩]) qs).results,
       (collectGo env jit cache (acc ++ [⟨q, t⟩]) qs).cache⟩ := by
  simp only [collectGo, h]

/-- Witness for C2 (amended) at a concrete one-entry cache. -/
theorem cached_query_appends_verbatim_wit :
    (List.lookup "q" [("q", "T")] = some "T") ∧
    (collectGo plainEnv zeroJit [("q", "T")] [] ["q"]).results =
      (collectGo plainEnv zeroJit [("q", "T")] ([] ++ [⟨"q", "T"⟩]) []).results := by
  refine ⟨by decide, ?_⟩
  rw [cached_query_appends_verbatim plainEnv zeroJit [("q", "T")] [] "q" [] "T" (by decide)]

/-- Forwarded-chunk events contribute no researching entries. -/
theorem researchingQs_fwd (q : String) (acc : List SearchResult) (cs : List String) :
    researchingQs (cs.map fun c => CEv.emit (Tag.fwd q) c acc) = [] := by
  induction cs with
  | nil => rfl
  | cons c cs ih => simpa [researchingQs, List.filterMap_cons] using ih

/-- `researchingQs` distributes over append. -/
theorem researchingQs_append (a b : List CEv) :
    researchingQs (a ++ b) = researchingQs a ++ researchingQs b :=
  List.filterMap_append ..

/-- Forwarded-chunk events contain no pacing delay. -/
theorem pauseCount_fwd (q : String) (acc : List SearchResult) (cs : List String) :
    pauseCount (cs.map fun c => CEv.emit (Tag.fwd q) c acc) = 0 := by
  induction cs with
  | nil => rfl
  | cons c cs ih => simpa [pauseCount, List.filter_cons] using ih

/-- `pauseCount` distributes over append. -/
theorem pauseCount_append (a b : List CEv) :
    pauseCount (a ++ b) = pauseCount a + pauseCount b := by
  simp [pauseCount, List.filter_append]

/-- Forwarded-chunk events contain no executor invocation. -/
theorem callCount_fwd (q : String) (acc : List SearchResult) (cs : List String) :
    callCount (cs.map fun c => CEv.emit (Tag.fwd q) c acc) = 0 := by
  induction cs with
  | nil => rfl
  | cons c cs ih => simpa [callCount, List.filter_cons] using ih

/-- `callCount` distributes over append. -/
theorem callCount_append (a b : List CEv) :
    callCount (a ++ b) = callCount a + callCount b := by
  simp [callCount, List.filter_append]

/-- Forwarded-chunk events contain no summary event. -/
theorem summaryCount_fwd (q : String) (acc : List SearchResult) (cs : List String) :
    summaryCount (cs.map fun c => CEv.emit (Tag.fwd q) c acc) = 0 := by
  induction cs with
  | nil => rfl
  | cons c cs ih => simpa [summaryCount, List.filter_cons] using ih

/-- `summaryCount` distributes over append. -/
theorem summaryCount_append (a b : List CEv) :
    summaryCount (a ++ b) = summaryCount a + summaryCount b := by
  simp [summaryCount, List.filter_append]

/-- Researching entries of a full non-cached query block. -/
theorem researchingQs_block (q : String) (acc acc' : List SearchResult) (cs : List String)
    (tail : List CEv) :
    researchingQs (CEv.emit (Tag.researching q) (researchingMsg q) acc :: CEv.call q ::
        cs.map (fun c => CEv.emit (Tag.fwd q) c acc) ++
        (CEv.emit (Tag.pacingNote q) pacingMsg acc' :: CEv.pause :: tail)) =
      q :: researchingQs tail := by
  induction cs with
  | nil => simp [researchingQs, List.filterMap_cons]
  | cons c cs ih =>
      simp only [List.map_cons, List.cons_append] at ih ⊢
      simp only [researchingQs, List.filterMap_cons] at ih ⊢
      exact ih

/-- Summary count of a full non-cached query block. -/
theorem summaryCount_block (q : String) (acc acc' : List SearchResult) (cs : List String)
    (tail : List CEv) :
    summaryCount (CEv.emit (Tag.researching q) (researchingMsg q) acc :: CEv.call q ::
        cs.map (fun c => CEv.emit (Tag.fwd q) c acc) ++
        (CEv.emit (Tag.pacingNote q) pacingMsg acc' :: CEv.pause :: tail)) =
      summaryCount tail := by
  induction cs with
  | nil => simp [summaryCount, List.filter_cons]
  | cons c cs ih =>
      simp only [List.map_cons, List.cons_append] at ih ⊢
      simp only [summaryCount, List.filter_cons] at ih ⊢
      exact ih

/-- Pause count of a full non-cached query block. -/
theorem pauseCount_block (q : String) (acc acc' : List SearchResult) (cs : List String)
    (tail : List CEv) :
    pauseCount (CEv.emit (Tag.researching q) (researchingMsg q) acc :: CEv.call q ::
        cs.map (fun c => CEv.emit (Tag.fwd q) c acc) ++
        (CEv.emit (Tag.pacingNote q) pacingMsg acc' :: CEv.pause :: tail)) =
      1 + pauseCount tail := by
  induction cs with
  | nil => simp [pauseCount, List.filter_cons]; omega
  | cons c cs ih =>
      simp only [List.map_cons, List.cons_append] at ih ⊢
      simp only [pauseCount, List.filter_cons] at ih ⊢
      exact ih

/-- Call count of a full non-cached query block. -/
theorem callCount_block (q : String) (acc acc' : List SearchResult) (cs : List String)
    (tail : List CEv) :
    callCount (CEv.emit (Tag.researching q) (researchingMsg q) acc :: CEv.call q ::
        cs.map (fun c => CEv.emit (Tag.fwd q) c acc) ++
        (CEv.emit (Tag.pacingNote q) pacingMsg acc' :: CEv.pause :: tail)) =
      1 + callCount tail := by
  induction cs with
  | nil => simp [callCount, List.filter_cons]; omega
  | cons c cs ih =>
      simp only [List.map_cons, List.cons_append] at ih ⊢
      simp only [callCount, List.filter_cons] at ih ⊢
      exact ih

/-- Structural invariants of the collector loop: the trace is a summary-free
body followed by exactly one summary event stating the final results count and
carrying the final results; one result is appended per query; researching
events appear in strict query order; pacing delays match executor invocations
one for one. -/
theorem collectGo_shape (env : String → AgentBehavior) (jit : String → Nat → ℚ) :
    ∀ (qs : List String) (cache : List (String × String)) (acc : List SearchResult),
      ∃ body,
        (collectGo env jit cache acc qs).events =
          body ++ [CEv.emit Tag.summary
                     (summaryMsg (collectGo env jit cache acc qs).results.length)
                     (collectGo env jit cache acc qs).results] ∧
        (collectGo env jit cache acc qs).results.length = acc.length + qs.length ∧
        researchingQs body = qs ∧
        summaryCount body = 0 ∧
        pauseCount (collectGo env jit cache acc qs).events =
          callCount (collectGo env jit cache acc qs).events := by
  intro qs
  induction qs with
  | nil =>
      intro cache acc
      refine ⟨[], ?_, by simp [collectGo], rfl, rfl, ?_⟩
      · simp [collectGo]
      · simp [collectGo, pauseCount, callCount, List.filter_cons]
  | cons q qs ih =>
      intro cache acc
      cases hlook : cache.lookup q with
      | some cached =>
          obtain ⟨body, hb, hlen, hrq, hsc, hpc⟩ := ih cache (acc ++ [⟨q, cached⟩])
          have hev : (collectGo env jit cache acc (q :: qs)).events =
              CEv.emit (Tag.researching q) (researchingMsg q) acc ::
                CEv.emit (Tag.cacheHit q) (cacheHitMsg q) acc ::
                (collectGo env jit cache (acc ++ [⟨q, cached⟩]) qs).events := by
            simp only [collectGo, hlook]
          have hres : (collectGo env jit cache acc (q :: qs)).results =
              (collectGo env jit cache (acc ++ [⟨q, cached⟩]) qs).results := by
            simp only [collectGo, hlook]
          refine ⟨CEv.emit (Tag.researching q) (researchingMsg q) acc ::
                    CEv.emit (Tag.cacheHit q) (cacheHitMsg q) acc :: body,
                  ?_, ?_, ?_, ?_, ?_⟩
          · rw [hev, hres, hb]; rfl
          · rw [hres]; simp at hlen ⊢; omega
          · simpa [researchingQs, List.filterMap_cons] using hrq
          · simpa [summaryCount, List.filter_cons] using hsc
          · rw [hev]
            simpa [pauseCount, callCount, List.filter_cons] using hpc
      | none =>
          obtain ⟨body, hb, hlen, hrq, hsc, hpc⟩ :=
            ih ((q, String.join (yieldsOf (execute_search_with_retry q (env q) (jit q)))) :: cache)
              (acc ++ [⟨q, stripStars (String.join (yieldsOf
                (execute_search_with_retry q (env q) (jit q))))⟩])
          set chunks := yieldsOf (execute_search_with_retry q (env q) (jit q)) with hchunks
          set full := String.join chunks with hfull
          set rest := collectGo env jit ((q, full) :: cache)
            (acc ++ [⟨q, stripStars full⟩]) qs with hrest
          have hev : (collectGo env jit cache acc (q :: qs)).events =
              CEv.emit (Tag.researching q) (researchingMsg q) acc :: CEv.call q ::
                chunks.map (fun c => CEv.emit (Tag.fwd q) c acc) ++
                (CEv.emit (Tag.pacingNote q) pacingMsg (acc ++ [⟨q, stripStars full⟩]) ::
                 CEv.pause :: rest.events) := by
            simp only [collectGo, hlook]
          have hres : (collectGo env jit cache acc (q :: qs)).results = rest.results := by
            simp only [collectGo, hlook]
          refine ⟨CEv.emit (Tag.researching q) (researchingMsg q) acc :: CEv.call q ::
                    chunks.map (fun c => CEv.emit (Tag.fwd q) c acc) ++
                    (CEv.emit (Tag.pacingNote q) pacingMsg (acc ++ [⟨q, stripStars full⟩]) ::
                     CEv.pause :: body),
                  ?_, ?_, ?_, ?_, ?_⟩
          · rw [hev, hres, hb]
            simp [List.append_assoc]
          · rw [hres]; simp at hlen ⊢; omega
          · rw [researchingQs_block, hrq]
          · rw [summaryCount_block, hsc]
          · rw [hev, pauseCount_block, callCount_block, hpc]

/-- C7 counterexample: with the first planned query already cached, the
research pass emits only 4 pacing delays for its 5 planned queries — the
cache-hit query is followed by no pacing event (`continue` skips it). -/
theorem pacing_missing_after_cache_hit :
    pauseCount (collect_search_results plainEnv zeroJit
        [("trending tools for d", "T")] "d").events = 4 ∧
    (get_search_queries "d").length = 5 :=
  ⟨by decide, rfl⟩

/-- C7 amended: the collector emits researching-status events in strict query
order, emits a pacing status and 1-time-unit delay exactly once per
executor-driven (non-cached) query, and after all queries exactly one summary
event — the last event — stating the count of queries processed, which equals
the number of queries planned. -/
theorem collector_order_and_summary (env : String → AgentBehavior) (jit : String → Nat → ℚ)
    (cache : List (String × String)) (project_description : String) :
    ∃ body,
      (collect_search_results env jit cache project_description).events =
        body ++ [CEv.emit Tag.summary
                   (summaryMsg (get_search_queries project_description).length)
                   (collect_search_results env jit cache project_description).results] ∧
      (collect_search_results env jit cache project_description).results.length =
        (get_search_queries project_description).length ∧
      researchingQs body = get_search_queries project_description ∧
      summaryCount body = 0 ∧
      pauseCount (collect_search_results env jit cache project_description).events =
        callCount (collect_search_results env jit cache project_description).events := by
  obtain ⟨body, hb, hlen, hrq, hsc, hpc⟩ :=
    collectGo_shape env jit (get_search_queries project_description) cache []
  have hlen5 : (collectGo env jit cache [] (get_search_queries project_description)).results.length =
      (get_search_queries project_description).length := by simpa using hlen
  refine ⟨body, ?_, hlen5, hrq, hsc, hpc⟩
  show (collectGo env jit cache [] (get_search_queries project_description)).events = _
  rw [hb, hlen5]
  exact rfl

/-- Collector events never map to a history append. -/
theorem isAppend_actOfCEv (e : CEv) : isAppend (actOfCEv e) = false := by
  cases e <;> rfl

/-- Appending a user/assistant pair preserves the history alternation
invariant. -/
theorem user_followed_append_pair (a b : String) :
    ∀ (hist : List Message), user_followed_by_assistant hist = true →
      user_followed_by_assistant
        (hist ++ [⟨Role.user, a⟩, ⟨Role.assistant, b⟩]) = true := by
  intro hist
  induction hist with
  | nil => intro _; rfl
  | cons m rest ih =>
      cases rest with
      | nil =>
          intro h
          simp only [user_followed_by_assistant] at h
          simp [user_followed_by_assistant, h]
      | cons m₂ rest₂ =>
          intro h
          simp only [user_followed_by_assistant, Bool.and_eq_true] at h
          obtain ⟨h1, h2⟩ := h
          have h3 := ih h2
          simp only [List.cons_append] at h3 ⊢
          simp only [user_followed_by_assistant, Bool.and_eq_true]
          exact ⟨h1, h3⟩

/-- C5: in both drained entry points the user-message append is the first
action (before any downstream search/model call), the assistant-message append
is the last action (after full response accumulation), no other history append
occurs in between, the final history is the old history extended by exactly
the user/assistant pair, and the user-followed-by-assistant history invariant
is preserved. -/
theorem history_bracketing_and_alternation (self : ArtistProjectAssistant)
    (env : String → AgentBehavior) (jit : String → Nat → ℚ) (syn fu : List String)
    (st : ServerState) (desc input : String)
    (h : user_followed_by_assistant st.history = true) :
    (∃ mid,
        (stream_project self env jit syn st desc).trace =
          Act.append ⟨Role.user, "Project Description: " ++ desc⟩ :: mid ++
            [Act.append ⟨Role.assistant, String.join (syn.filter (· ≠ ""))⟩] ∧
        ∀ a ∈ mid, isAppend a = false) ∧
    (stream_project self env jit syn st desc).state.history =
      st.history ++ [⟨Role.user, "Project Description: " ++ desc⟩,
                     ⟨Role.assistant, String.join (syn.filter (· ≠ ""))⟩] ∧
    user_followed_by_assistant (stream_project self env jit syn st desc).state.history = true ∧
    (∃ mid,
        (stream_followup self fu st input).trace =
          Act.append ⟨Role.user, input⟩ :: mid ++
            [Act.append ⟨Role.assistant, String.join (fu.filter (· ≠ ""))⟩] ∧
        ∀ a ∈ mid, isAppend a = false) ∧
    (stream_followup self fu st input).state.history =
      st.history ++ [⟨Role.user, input⟩, ⟨Role.assistant, String.join (fu.filter (· ≠ ""))⟩] ∧
    user_followed_by_assistant (stream_followup self fu st input).state.history = true := by
  refine ⟨?_, rfl, ?_, ?_, rfl, ?_⟩
  · refine ⟨(collect_search_results env jit self.search_cache desc).events.map actOfCEv ++
      (Act.out synth_marker_chunk :: Act.llmCall ::
        (syn.filter (· ≠ "")).map Act.out), ?_, ?_⟩
    · show Act.append _ ::
        ((collect_search_results env jit self.search_cache desc).events.map actOfCEv ++
          (Act.out synth_marker_chunk :: Act.llmCall ::
            ((syn.filter (· ≠ "")).map Act.out ++
              [Act.append ⟨Role.assistant, String.join (syn.filter (· ≠ ""))⟩]))) = _
      simp [List.append_assoc]
    · intro a ha
      simp only [List.mem_append, List.mem_cons, List.mem_map] at ha
      rcases ha with ⟨e, _, he⟩ | h1 | h1 | ⟨s, _, hs⟩
      · rw [← he]; exact isAppend_actOfCEv e
      · rw [h1]; rfl
      · rw [h1]; rfl
      · rw [← hs]; rfl
  · exact user_followed_append_pair _ _ st.history h
  · refine ⟨Act.llmCall :: (fu.filter (· ≠ "")).map Act.out, rfl, ?_⟩
    intro a ha
    simp only [List.mem_cons, List.mem_map] at ha
    rcases ha with h1 | ⟨s, _, hs⟩
    · rw [h1]; rfl
    · rw [← hs]; rfl
  · exact user_followed_append_pair _ _ st.history h

/-- Witness for C5 on the empty history. -/
theorem history_bracketing_and_alternation_wit :
    user_followed_by_assistant (ServerState.mk [] []).history = true ∧
    (stream_followup ⟨[]⟩ ["F"] ⟨[], []⟩ "hi").state.history =
      (ServerState.mk [] []).history ++
        [⟨Role.user, "hi"⟩, ⟨Role.assistant, String.join (["F"].filter (· ≠ ""))⟩] :=
  ⟨by decide,
   (history_bracketing_and_alternation ⟨[]⟩ plainEnv zeroJit ["G"] ["F"] ⟨[], []⟩ "d" "hi"
     (by decide)).2.2.2.2.1⟩

/-- C6 counterexample: a follow-up request with an absent session id is not an
error, but it creates no session at all — the sessions store stays empty — and
the history the follow-up consults starts with the user message, not a system
message. -/
theorem no_session_created_on_missing_id :
    (process_route plainEnv zeroJit ["G"] ["F"] ⟨[], []⟩
        ⟨none, some "hi", none, some "gemini"⟩).2.sessions = [] ∧
    (followup_consulted_history [] "hi").head? = some ⟨Role.user, "hi"⟩ :=
  ⟨rfl, rfl⟩

/-- C6 amended: `create_session`, when called, seeds the new session with
exactly one system message; and request handling never reads or writes the
sessions store at all — a missing or unknown session id is simply ignored
(never an error), and no session is created for it. -/
theorem create_session_seeds_system_and_routes_ignore_sessions :
    (∀ (system_prompt freshId : String) (sessions : List (String × List Message)),
        ((create_session system_prompt freshId sessions).2.lookup
            (create_session system_prompt freshId sessions).1 =
          some [⟨Role.system, system_prompt⟩])) ∧
    (∀ (env : String → AgentBehavior) (jit : String → Nat → ℚ) (syn fu : List String)
        (st : ServerState) (req : ProjectRequest),
        (process_route env jit syn fu st req).2.sessions = st.sessions) := by
  constructor
  · intro sp fid sessions
    simp [create_session, List.lookup]
  · intro env jit syn fu st req
    unfold process_route process_request_background
    by_cases hq : isTruthy req.follow_up_question
    · simp [hq, stream_followup]
    · simp [hq, stream_project]

/-- C8 (code bug): `process_project` in `api/routes.py` always constructs
`ProjectResponse(response=..., session_id=None)` although `api/models.py`
declares `session_id` as a required `str`; response validation therefore fails
on every completed request instead of returning a string session id.  Here the
endpoint model is evaluated at the failing input
`{"project_description": "mixed media portrait"}`. -/
theorem process_route_errors_on_session_none :
    (process_route plainEnv zeroJit ["G"] []
        ⟨[], []⟩ ⟨some "mixed media portrait", none, none, some "gemini"⟩).1 =
      Except.error "ValidationError: ProjectResponse fields are required strings" :=
  rfl

/-- C9 counterexample: two distinct assistant instances alias the single
module-level `conversation_history` — a follow-up drained on behalf of one
instance changes the history the other instance reads. -/
theorem conversation_history_shared_across_instances :
    ArtistProjectAssistant.readHistory ⟨[("k", "v")]⟩
        (stream_followup ⟨[]⟩ ["F"] ⟨[], []⟩ "hi").state ≠
      ArtistProjectAssistant.readHistory ⟨[("k", "v")]⟩ ⟨[], []⟩ := by
  decide

/-- The collector only ever appends to the results list: the final results
extend the entry accumulator. -/
theorem collectGo_results_extend (env : String → AgentBehavior) (jit : String → Nat → ℚ) :
    ∀ (qs : List String) (cache : List (String × String)) (acc : List SearchResult),
      ∃ t, (collectGo env jit cache acc qs).results = acc ++ t := by
  intro qs
  induction qs with
  | nil => intro cache acc; exact ⟨[], by simp [collectGo]⟩
  | cons q qs ih =>
      intro cache acc
      cases hlook : cache.lookup q with
      | some cached =>
          obtain ⟨t, ht⟩ := ih cache (acc ++ [⟨q, cached⟩])
          refine ⟨⟨q, cached⟩ :: t, ?_⟩
          have hres : (collectGo env jit cache acc (q :: qs)).results =
              (collectGo env jit cache (acc ++ [⟨q, cached⟩]) qs).results := by
            simp only [collectGo, hlook]
          rw [hres, ht]; simp
      | none =>
          set full := String.join (yieldsOf (execute_search_with_retry q (env q) (jit q)))
            with hfull
          obtain ⟨t, ht⟩ := ih ((q, full) :: cache) (acc ++ [⟨q, stripStars full⟩])
          refine ⟨⟨q, stripStars full⟩ :: t, ?_⟩
          have hres : (collectGo env jit cache acc (q :: qs)).results =
              (collectGo env jit ((q, full) :: cache)
                (acc ++ [⟨q, stripStars full⟩]) qs).results := by
            simp only [collectGo, hlook]
          rw [hres, ht]; simp

/-- Every snapshot carried by an emitted collector event is an initial segment
of the final results list: content already appended never changes. -/
theorem collectGo_snapshots (env : String → AgentBehavior) (jit : String → Nat → ℚ) :
    ∀ (qs : List String) (cache : List (String × String)) (acc : List SearchResult)
      (tag : Tag) (text : String) (snap : List SearchResult),
      CEv.emit tag text snap ∈ (collectGo env jit cache acc qs).events →
      ∃ t, (collectGo env jit cache acc qs).results = snap ++ t := by
  intro qs
  induction qs with
  | nil =>
      intro cache acc tag text snap hm
      simp [collectGo] at hm
      obtain ⟨-, -, hsnap⟩ := hm
      exact ⟨[], by simp [collectGo, hsnap]⟩
  | cons q qs ih =>
      intro cache acc tag text snap hm
      cases hlook : cache.lookup q with
      | some cached =>
          have hev : (collectGo env jit cache acc (q :: qs)).events =
              CEv.emit (Tag.researching q) (researchingMsg q) acc ::
                CEv.emit (Tag.cacheHit q) (cacheHitMsg q) acc ::
                (collectGo env jit cache (acc ++ [⟨q, cached⟩]) qs).events := by
            simp only [collectGo, hlook]
          have hres : (collectGo env jit cache acc (q :: qs)).results =
              (collectGo env jit cache (acc ++ [⟨q, cached⟩]) qs).results := by
            simp only [collectGo, hlook]
          rw [hev] at hm
          rw [hres]
          simp only [List.mem_cons] at hm
          rcases hm with h1 | h1 | h1
          · obtain ⟨t, ht⟩ := collectGo_results_extend env jit qs cache (acc ++ [⟨q, cached⟩])
            cases h1
            exact ⟨[⟨q, cached⟩] ++ t, by rw [ht]; simp⟩
          · obtain ⟨t, ht⟩ := collectGo_results_extend env jit qs cache (acc ++ [⟨q, cached⟩])
            cases h1
            exact ⟨[⟨q, cached⟩] ++ t, by rw [ht]; simp⟩
          · exact ih cache (acc ++ [⟨q, cached⟩]) tag text snap h1
      | none =>
          set chunks := yieldsOf (execute_search_with_retry q (env q) (jit q)) with hchunks
          set full := String.join chunks with hfull
          have hev : (collectGo env jit cache acc (q :: qs)).events =
              CEv.emit (Tag.researching q) (researchingMsg q) acc :: CEv.call q ::
                chunks.map (fun c => CEv.emit (Tag.fwd q) c acc) ++
                (CEv.emit (Tag.pacingNote q) pacingMsg (acc ++ [⟨q, stripStars full⟩]) ::
                 CEv.pause :: (collectGo env jit ((q, full) :: cache)
                   (acc ++ [⟨q, stripStars full⟩]) qs).events) := by
            simp only [collectGo, hlook]
          have hres : (collectGo env jit cache acc (q :: qs)).results =
              (collectGo env jit ((q, full) :: cache)
                (acc ++ [⟨q, stripStars full⟩]) qs).results := by
            simp only [collectGo, hlook]
          rw [hev] at hm
          rw [hres]
          obtain ⟨t, ht⟩ := collectGo_results_extend env jit qs ((q, full) :: cache)
            (acc ++ [⟨q, stripStars full⟩])
          simp only [List.cons_append, List.mem_cons, List.mem_append, List.mem_map] at hm
          rcases hm with h1 | h1 | ⟨c, _, hc⟩ | h1 | h1 | h1
          · cases h1
            exact ⟨[⟨q, stripStars full⟩] ++ t, by rw [ht]; simp⟩
          · exact absurd h1 (by simp)
          · cases hc
            exact ⟨[⟨q, stripStars full⟩] ++ t, by rw [ht]; simp⟩
          · cases h1
            exact ⟨t, ht⟩
          · exact absurd h1 (by simp)
          · exact ih ((q, full) :: cache) (acc ++ [⟨q, stripStars full⟩]) tag text snap h1

/-- C9 amended: the conversation history is a single module-level list aliased
by every assistant instance — an append on behalf of any instance is what every
instance reads afterwards — and it only ever grows by appends (a drained
follow-up extends it by exactly the user/assistant pair, preserving all earlier
messages unchanged).  The collector's results list is likewise append-only:
every emitted snapshot is an initial segment of the final results, so content
already appended never changes across subsequently emitted events. -/
theorem history_shared_append_only_and_snapshots_monotone :
    (∀ (self other : ArtistProjectAssistant) (fu : List String) (st : ServerState)
        (input : String),
        other.readHistory (stream_followup self fu st input).state =
          st.history ++ [⟨Role.user, input⟩,
                         ⟨Role.assistant, String.join (fu.filter (· ≠ ""))⟩]) ∧
    (∀ (env : String → AgentBehavior) (jit : String → Nat → ℚ)
        (cache : List (String × String)) (desc : String) (tag : Tag) (text : String)
        (snap : List SearchResult),
        CEv.emit tag text snap ∈ (collect_search_results env jit cache desc).events →
        ∃ t, (collect_search_results env jit cache desc).results = snap ++ t) :=
  ⟨fun _ _ _ _ _ => rfl,
   fun env jit cache desc tag text snap hm =>
     collectGo_snapshots env jit (get_search_queries desc) cache [] tag text snap hm⟩

/-- Witness for C9 (amended) at the first researching event of a concrete
research pass. -/
theorem history_shared_append_only_and_snapshots_monotone_wit :
    (CEv.emit (Tag.researching "trending tools for d")
        (researchingMsg "trending tools for d") [] ∈
      (collect_search_results plainEnv zeroJit [] "d").events) ∧
    (∃ t, (collect_search_results plainEnv zeroJit [] "d").results = [] ++ t) :=
  ⟨by decide,
   history_shared_append_only_and_snapshots_monotone.2 plainEnv zeroJit [] "d"
     (Tag.researching "trending tools for d") (researchingMsg "trending tools for d") []
     (by decide)⟩

/-- C10 amended: `research_project` returns the SECOND field of the
marker-split of the accumulated stream, stripped — when the marker occurs
exactly once this is everything after the first occurrence (and when the
marker is absent the entire stream is returned); but when a forwarded chunk
makes the marker occur more than once, the returned text is only the portion
between the first and second occurrences. Proved here for the
exactly-one-occurrence case; the counterexample covers the multi-occurrence
divergence. -/
theorem research_extract_unique_marker (self : ArtistProjectAssistant)
    (env : String → AgentBehavior) (jit : String → Nat → ℚ) (syn : List String)
    (st : ServerState) (desc : String)
    (h : (pySplit (accumulated_stream self env jit syn st desc) synthesis_marker).length = 2) :
    research_project self env jit syn st desc =
      pyStrip (text_after_first_marker (accumulated_stream self env jit syn st desc)
        synthesis_marker) := by
  rcases hsplit : pySplit (accumulated_stream self env jit syn st desc) synthesis_marker with
    _ | ⟨a, _ | ⟨b, rest⟩⟩
  · rw [hsplit] at h; simp at h
  · rw [hsplit] at h; simp at h
  · rw [hsplit] at h
    have hr : rest = [] := by simpa using h
    subst hr
    simp only [research_project, text_after_first_marker, hsplit]
    simp [joinSep]

set_option maxRecDepth 100000 in
/-- C10 counterexample: in an environment whose search results themselves
contain the synthesis marker text, `research_project` does not return the
portion after the first marker occurrence — `split(marker)[1]` stops at the
second occurrence. -/
theorem split_drops_text_after_second_marker :
    research_project ⟨[]⟩ markerEnv zeroJit ["G"] ⟨[], []⟩ "d" ≠
      pyStrip (text_after_first_marker
        (accumulated_stream ⟨[]⟩ markerEnv zeroJit ["G"] ⟨[], []⟩ "d") synthesis_marker) := by
  decide

set_option maxRecDepth 100000 in
/-- Witness for C10 (amended) in an environment with empty search chunks, where
the accumulated stream contains the marker exactly once. -/
theorem research_extract_unique_marker_wit :
    ((pySplit (accumulated_stream ⟨[]⟩ emptyEnv zeroJit ["G"] ⟨[], []⟩ "d")
        synthesis_marker).length = 2) ∧
    research_project ⟨[]⟩ emptyEnv zeroJit ["G"] ⟨[], []⟩ "d" =
      pyStrip (text_after_first_marker
        (accumulated_stream ⟨[]⟩ emptyEnv zeroJit ["G"] ⟨[], []⟩ "d") synthesis_marker) :=
  ⟨by decide,
   research_extract_unique_marker ⟨[]⟩ emptyEnv zeroJit ["G"] ⟨[], []⟩ "d" (by decide)⟩
